import Mathlib

/-!
# Leaderboard parsing and solve-state composition: a verified embedding

This file is a shallow embedding, in Lean 4, of the core of the
`aoc_runner_tiles` repository: the leaderboard parser
(`src/leaderboard.py`) and the solve-state composition / year aggregation
logic (`src/tile_maker.py`).  Python strings are modelled as `String` /
`List Char`, Python `dict`s as association lists with in-place update
(`dictInsert`), optional values (`None`) as `Option`, and raised
exceptions (`ValueError`, `AssertionError`, `IndexError`, `KeyError`) as
an `Except PyError` result.  External collaborators (the network fetch,
the `Language` objects, the `DataTracker`) are parameters of the
embedded functions, mirroring their observable interface.
-/

namespace AocTiles

/-- Errors raised by the embedded Python code.  Each constructor models one
exception site of the source. -/
inductive PyError where
  /-- `ValueError("Runtime data must be provided if use_runtime is True.")` -/
  | valueError : PyError
  /-- `AssertionError "Found no leaderboard?!"` (`leaderboard.py` line 34). -/
  | noLeaderboard : PyError
  /-- `AssertionError` from `assert len(scores) in (3, 6)` (`leaderboard.py`
  line 48); carries the day token and the offending length. -/
  | badScoresCount (day : List Char) (n : Nat) : PyError
  /-- `IndexError` from an out-of-range list assignment such as
  `scores[3] = ...` on a 3-element list. -/
  | indexError : PyError
  /-- `KeyError` from a dict lookup (`{...}[self.count_as_solved_when]` in
  `_get_stars`, or `year_data.day_to_stars[day]` in `handle_year`). -/
  | keyError (k : String) : PyError
  /-- `ValueError` from `int(day)` on a non-numeric token. -/
  | intParseError (day : List Char) : PyError
deriving DecidableEq, Repr

/-- Source: `dataclass DayScores` of `leaderboard.py`: two part slots, each an
optional time/rank/score triple.  `None` is `none`. -/
structure DayScores where
  time1 : Option String := none
  rank1 : Option String := none
  score1 : Option String := none
  time2 : Option String := none
  rank2 : Option String := none
  score2 : Option String := none
deriving DecidableEq, Repr

/-! ## Python primitives on strings, lists and dicts -/

/-- Source: `list.insert(i, a)` of Python: inserts before index `i`, clamping `i`
to the list length (so out-of-range inserts append). -/
def pyInsert (l : List α) (i : Nat) (a : α) : List α :=
  l.take i ++ a :: l.drop i

/-- Source: `l[i] = a` of Python: in-range assignment returns the updated list,
out-of-range assignment raises `IndexError`. -/
def pySetIdx (l : List α) (i : Nat) (a : α) : Except PyError (List α) :=
  if i < l.length then .ok (l.take i ++ a :: l.drop (i + 1)) else .error .indexError

/-- Python dict assignment `m[k] = v`: replaces the value in place if the
key exists (keeping its position), otherwise appends the new pair. -/
def dictInsert (m : List (Int × α)) (k : Int) (v : α) : List (Int × α) :=
  match m with
  | [] => [(k, v)]
  | (k', v') :: rest => if k' = k then (k, v) :: rest else (k', v') :: dictInsert rest k v

/-- Python dict lookup `m.get(k)`: `some` the stored value, `none` if absent. -/
def dictGet (m : List (Int × α)) (k : Int) : Option α :=
  match m with
  | [] => none
  | (k', v') :: rest => if k' = k then some v' else dictGet rest k

/-- Fold a fallible step over a list, stopping at the first error: the
evaluation order of a Python `for` loop whose body may raise. -/
def exFoldl (f : β → α → Except PyError β) : List α → β → Except PyError β
  | [], b => .ok b
  | a :: as, b =>
    match f b a with
    | .error e => .error e
    | .ok b' => exFoldl f as b'

/-- Strip leading and trailing whitespace (`str.strip()`). -/
def trimL (cs : List Char) : List Char :=
  ((cs.dropWhile Char.isWhitespace).reverse.dropWhile Char.isWhitespace).reverse

/-- Source: `str.split("\n")`: split on every newline, keeping empty pieces. -/
def splitLinesL : List Char → List (List Char)
  | [] => [[]]
  | c :: cs =>
    if c = '\n' then [] :: splitLinesL cs
    else
      match splitLinesL cs with
      | [] => [[c]]
      | l :: ls => (c :: l) :: ls

/-- Whitespace-run tokenizer: the words of a character list, in order. -/
def wordsAux : List Char → List Char → List (List Char)
  | acc, [] => if acc = [] then [] else [acc.reverse]
  | acc, c :: cs =>
    if c.isWhitespace then
      if acc = [] then wordsAux [] cs else acc.reverse :: wordsAux [] cs
    else wordsAux (c :: acc) cs

/-- Source: `re.split(r"\s+", s)` for an `s` with no leading or trailing
whitespace (the parser always applies it to `line.strip()`): the
whitespace-separated tokens, or the single empty token when `s` is empty. -/
def pyTokens (cs : List Char) : List (List Char) :=
  if cs = [] then [[]] else wordsAux [] cs

/-- The numeric value of a nonempty all-digit character list. -/
def digitsToNat (cs : List Char) : Option Nat :=
  if cs = [] then none
  else
    cs.foldl
      (fun acc c =>
        acc.bind fun n => if c.isDigit then some (n * 10 + (c.toNat - '0'.toNat)) else none)
      (some 0)

/-- Source: `int(tok)` of Python on a whitespace-free token: an optional sign
followed by digits; anything else raises `ValueError`.  (Python's `int`
also accepts `+`, underscores and unicode digits; the documents this
parser consumes use plain ASCII day numbers.) -/
def toIntL (cs : List Char) : Except PyError Int :=
  match cs with
  | '-' :: rest =>
    match digitsToNat rest with
    | some n => .ok (-(n : Int))
    | none => .error (.intParseError cs)
  | _ =>
    match digitsToNat cs with
    | some n => .ok (n : Int)
    | none => .error (.intParseError cs)

/-- Source: `pat in s` of Python: substring containment. -/
def containsSub (pat : List Char) : List Char → Bool
  | [] => pat.isPrefixOf []
  | c :: cs => pat.isPrefixOf (c :: cs) || containsSub pat cs

/-- Split at the first occurrence of `pat`: `some (before, after)` with
`before ++ pat ++ after` the input, scanning left to right. -/
def splitAtSub (pat : List Char) : List Char → Option (List Char × List Char)
  | [] => if pat.isPrefixOf ([] : List Char) then some ([], []) else none
  | c :: cs =>
    if pat.isPrefixOf (c :: cs) then some ([], (c :: cs).drop pat.length)
    else (splitAtSub pat cs).map fun p => (c :: p.1, p.2)

/-! ## The leaderboard parser (`leaderboard.py`) -/

/-- Consume a maximal run of space characters (the regex fragment
`' *'` followed by a letter: greedy matching of spaces is deterministic
because a space can never match the following literal letter). -/
def dropSpacesL (cs : List Char) : List Char :=
  cs.dropWhile (· = ' ')

/-- Drop `p` from the front of `cs`, if `cs` starts with it. -/
def stripPrefixL (p cs : List Char) : Option (List Char) :=
  if p.isPrefixOf cs then some (cs.drop p.length) else none

/-- Match the era-dependent start marker at the head of `cs`, returning the
remainder.  The source builds the marker into a regex, so for pre-cutoff
years the `' *'` fragments of
`'<span class="leaderboard-daydesc-both"> *Time *Rank *Score</span>\n'`
match any run of spaces; for post-cutoff years the marker
`'<span class="leaderboard-daydesc-both">-Part 2-</span>\n'` is literal. -/
def matchStart (year : Int) (cs : List Char) : Option (List Char) :=
  if year < 2025 then
    (stripPrefixL "<span class=\"leaderboard-daydesc-both\">".data cs).bind fun cs1 =>
      (stripPrefixL "Time".data (dropSpacesL cs1)).bind fun cs2 =>
        (stripPrefixL "Rank".data (dropSpacesL cs2)).bind fun cs3 =>
          stripPrefixL "Score</span>\n".data (dropSpacesL cs3)
  else
    stripPrefixL "<span class=\"leaderboard-daydesc-both\">-Part 2-</span>\n".data cs

/-- Remainder of the document after the first (leftmost) occurrence of the
start marker, scanning as `re.findall` does. -/
def findStart (year : Int) : List Char → Option (List Char)
  | [] => none
  | c :: cs =>
    match matchStart year (c :: cs) with
    | some rest => some rest
    | none => findStart year cs

/-- The table region: the text between the first start-marker match and
the first `"</pre>"` after it — the capture of
`re.findall(rf"{start}(.*?){end}", html, re.DOTALL | re.MULTILINE)[0]`. -/
def tableRegion (year : Int) (html : String) : Option (List Char) :=
  (findStart year html.data).bind fun rest =>
    (splitAtSub "</pre>".data rest).map fun p => p.1

/-- The table rows: the region, stripped, split on newlines
(`matches[0].strip().split("\n")`). -/
def tableRows (year : Int) (html : String) : Option (List (List Char)) :=
  (tableRegion year html).map fun region => splitLinesL (trimL region)

/-- The external `DataTracker` consumed by the parser: a runtime lookup
keyed by `(year, day, part)`.  A `none` result models a `KeyError`. -/
def DataTracker : Type := Int → Int → Int → Option ℚ

/-- Source: `f"{x:.3f}"`: the runtime formatted with three decimal places.  (The
decimal rounding of the underlying binary float is modelled as rational
rounding; no claim inspects the formatted digits.) -/
def fmt3 (q : ℚ) : String :=
  let n : Int := round (q * 1000)
  let sign := if n < 0 then "-" else ""
  let m := n.natAbs
  let fpStr := Nat.repr (m % 1000)
  let pad := String.mk (List.replicate (3 - fpStr.length) '0')
  sign ++ Nat.repr (m / 1000) ++ "." ++ pad ++ fpStr

/-- The empty runtime tracker, used as the placeholder when
`runtime_data is None` and `use_runtime` is false (the tracker is then
never consulted). -/
def emptyTracker : DataTracker := fun _ _ _ => none

/-- Source: `scores = [s if s != "-" else None for s in scores]` (`leaderboard.py`
line 40): turn the placeholder dash into an absent value. -/
def convertScores (scoresRaw : List (List Char)) : List (Option String) :=
  scoresRaw.map fun s => if s = ['-'] then none else some (String.mk s)

/-- The post-cutoff placeholder insertions (`leaderboard.py` lines 41-46):
two absent values inserted at index 1, and — when the result is longer
than 3 — another two at index 4. -/
def normalizeScores (year : Int) (scores0 : List (Option String)) : List (Option String) :=
  if year ≥ 2025 then
    let s1 := pyInsert (pyInsert scores0 1 none) 1 none
    if s1.length > 3 then pyInsert (pyInsert s1 4 none) 4 none else s1
  else scores0

/-- The runtime substitution (`leaderboard.py` lines 49-57):
`scores[0]` and `scores[3]` are overwritten with the looked-up runtime
formatted to three decimals, a missing entry (`KeyError`) becoming an
absent value; the index-3 assignment is out of range on a 3-element
list. -/
def substituteRuntime (year : Int) (rd : DataTracker) (d : Int)
    (scores1 : List (Option String)) : Except PyError (List (Option String)) :=
  match pySetIdx scores1 0
      (match rd year d 1 with
       | some t => some (fmt3 t)
       | none => none) with
  | .error e => .error e
  | .ok s2 =>
    pySetIdx s2 3
      (match rd year d 2 with
       | some t => some (fmt3 t)
       | none => none)

/-- Source: `DayScores(*scores)` (`leaderboard.py` line 59) applied to the
validated field list: 3 fields fill part 1, 6 fields fill both parts.
(The fallback arm is unreachable after the 3-or-6 check.) -/
def buildRecord (day : List Char) (scores2 : List (Option String)) :
    Except PyError DayScores :=
  match scores2 with
  | [a, b, c] => .ok ⟨a, b, c, none, none, none⟩
  | [a, b, c, t, r, s] => .ok ⟨a, b, c, t, r, s⟩
  | _ => .error (.badScoresCount day scores2.length)

/-- The per-line body of the parser's row loop (`leaderboard.py` lines
37-59): tokenize, turn `"-"` into an absent value, apply the
post-cutoff placeholder insertions, check the 3-or-6 invariant, convert
the day number (`int(day)` — raised at line 51 under `use_runtime`,
line 59 otherwise, in both cases after the length assert), apply the
runtime substitution, and build the `DayScores` record keyed by the day
number. -/
def processLine (year : Int) (use_runtime : Bool) (rd : DataTracker) (line : List Char) :
    Except PyError (Int × DayScores) :=
  match pyTokens (trimL line) with
  | [] => .error (.intParseError [])
  | day :: scoresRaw =>
    let scores1 := normalizeScores year (convertScores scoresRaw)
    if scores1.length = 3 ∨ scores1.length = 6 then
      match toIntL day with
      | .error e => .error e
      | .ok d =>
        match (if use_runtime then substituteRuntime year rd d scores1 else .ok scores1) with
        | .error e => .error e
        | .ok scores2 =>
          match buildRecord day scores2 with
          | .error e => .error e
          | .ok rec => .ok (d, rec)
    else .error (.badScoresCount day scores1.length)

/-- Source: `parse_leaderboard(year, runtime_data, use_runtime)` of
`leaderboard.py`, with the network fetch `get_leaderboard` passed in as
`gl`.  Returns the day-to-scores dict, or the first raised exception. -/
def parse_leaderboard (gl : Int → String) (year : Int)
    (runtime_data : Option DataTracker) (use_runtime : Bool) :
    Except PyError (List (Int × DayScores)) :=
  if use_runtime && runtime_data.isNone then .error .valueError
  else
    let html := gl year
    if containsSub "You haven't collected any stars... yet.".data html.data then .ok []
    else
      match tableRows year html with
      | none => .error .noLeaderboard
      | some rows =>
        exFoldl
          (fun m line =>
            match processLine year use_runtime (runtime_data.getD emptyTracker) line with
            | .error e => .error e
            | .ok (d, rec) => .ok (dictInsert m d rec))
          rows []

/-! ## The tile maker (`tile_maker.py`) -/

/-- The external `Language` collaborator: its name and its queryable
`ran` relation (the set of `(year, day)` pairs it attempted). -/
structure Language where
  lang : String
  ran : List (Int × Int)
deriving DecidableEq, Repr

/-- Source: `dataclass YearData`: the three parallel per-day dicts of one year. -/
structure YearData where
  day_to_scores : List (Int × DayScores)
  day_to_paths : List (Int × List Language)
  day_to_stars : List (Int × Nat)
deriving DecidableEq, Repr

/-- The slice of a `TileMaker` instance that the composition and
aggregation logic reads.  The `auto` values are resolved in `__init__`
before composition runs, so these fields hold the resolved strings. -/
structure TileMaker where
  what_to_show_on_right_side : String
  count_as_solved_when : String
  create_all_days : Bool

/-- The year-level view of `solutions_by_year[year]`: the `language in
day_to_solution` membership test, the per-language day tracker, and the
year-level day tracker used when the language is absent.  A day lookup
yields `some n` for an entry of `len` `n`, `none` for a `None` entry. -/
structure YearTracker where
  hasLang : Language → Bool
  byLang : Language → Int → Option Nat
  selfByDay : Int → Option Nat

/-- The external `solutions_by_year : DataTracker` as consumed by
`compose_solve_data`: year membership, the per-year tracker, and the
`(year, day, part)` runtime lookup it doubles as. -/
structure SolutionsByYear where
  hasYear : Int → Bool
  tracker : Int → YearTracker
  runtime : DataTracker

/-- Source: `is_leaderboard_needed` (`tile_maker.py` lines 213-215). -/
def is_leaderboard_needed (tm : TileMaker) : Bool :=
  decide (tm.what_to_show_on_right_side ∈ (["time_and_rank", "runtime"] : List String)) ||
    decide (tm.count_as_solved_when ∈ (["on_leaderboard", "both", "either"] : List String))

/-- Python truthiness of an optional string: `bool(None)` is false,
`bool(s)` is true exactly for nonempty `s`. -/
def pyTruthy : Option String → Bool
  | none => false
  | some s => !(s == "")

/-- Source: `0 if solved is None else bool(solved.rank1) + bool(solved.rank2)`:
the remote evidence of `_get_stars`. -/
def remoteCount : Option DayScores → Nat
  | none => 0
  | some sc => (pyTruthy sc.rank1).toNat + (pyTruthy sc.rank2).toNat

/-- Source: `0 if solution is None else len(solution)`: the local evidence of
`_get_stars`. -/
def localLen : Option Nat → Nat
  | none => 0
  | some n => n

/-- Source: `TileMaker._get_stars` (`tile_maker.py` lines 202-210): counts
populated rank fields as remote evidence, the `len` of the day's
solution entry as local evidence, and combines them under the resolved
rule; an unknown rule raises `KeyError` from the dict lookup. -/
def get_stars (tm : TileMaker) (solved : Option DayScores) (solution : Option Nat) :
    Except PyError Nat :=
  let on_leaderboard : Nat := remoteCount solved
  let file_exists : Nat := localLen solution
  if tm.count_as_solved_when = "on_leaderboard" then .ok on_leaderboard
  else if tm.count_as_solved_when = "file_exists" then .ok file_exists
  else if tm.count_as_solved_when = "either" then .ok (max on_leaderboard file_exists)
  else if tm.count_as_solved_when = "both" then .ok (min on_leaderboard file_exists)
  else .error (.keyError tm.count_as_solved_when)

/-- The value `_get_stars` returns under a valid rule. -/
def starsValue (tm : TileMaker) (solved : Option DayScores) (solution : Option Nat) : Nat :=
  if tm.count_as_solved_when = "on_leaderboard" then remoteCount solved
  else if tm.count_as_solved_when = "file_exists" then localLen solution
  else if tm.count_as_solved_when = "either" then max (remoteCount solved) (localLen solution)
  else if tm.count_as_solved_when = "both" then min (remoteCount solved) (localLen solution)
  else 0

/-- The four resolved values of `count_as_solved_when` (the `auto` choice
is resolved in `__init__` before composition). -/
def ruleValid (tm : TileMaker) : Prop :=
  tm.count_as_solved_when = "on_leaderboard" ∨ tm.count_as_solved_when = "file_exists" ∨
    tm.count_as_solved_when = "either" ∨ tm.count_as_solved_when = "both"

/-- The day-25 bonus adjustment applied before storing a decision:
`if day == 25 and stars == 1: stars = 2` (`tile_maker.py` lines 235-236). -/
def adjustStars (d : Int) (s : Nat) : Nat :=
  if d = 25 ∧ s = 1 then 2 else s

/-- Source: `range(1, 26)`: the candidate days of the per-language loop. -/
def dayRange : List Int :=
  [1, 2, 3, 4, 5, 6, 7, 8, 9, 10, 11, 12, 13, 14, 15, 16, 17, 18, 19, 20,
   21, 22, 23, 24, 25]

/-- One iteration of the day loop (`tile_maker.py` lines 233-239): decide
the stars for the day, apply the day-25 adjustment, store the count, and
append the language to the day's contributing list. -/
def dayStep (tm : TileMaker) (day_to_scores : List (Int × DayScores))
    (day_to_solution : Int → Option Nat) (lang : Language)
    (st : List (Int × Nat) × List (Int × List Language)) (d : Int) :
    Except PyError (List (Int × Nat) × List (Int × List Language)) :=
  match get_stars tm (dictGet day_to_scores d) (day_to_solution d) with
  | .error e => .error e
  | .ok stars =>
    .ok (dictInsert st.1 d (adjustStars d stars),
      dictInsert st.2 d ((dictGet st.2 d).getD [] ++ [lang]))

/-- The solution-file count `compose_solve_data` passes to `_get_stars`
for `(language, year, day)`: `solutions_by_year[year]`, narrowed to the
language when present (`tile_maker.py` lines 223-225). -/
def daySolution (sols : SolutionsByYear) (lang : Language) (y : Int) : Int → Option Nat :=
  if (sols.tracker y).hasLang lang then (sols.tracker y).byLang lang
  else (sols.tracker y).selfByDay

/-- One `(language, year)` iteration of `compose_solve_data`
(`tile_maker.py` lines 219-241), threading the running
`SolveData.year_to_data` dict and a count of `parse_leaderboard`
invocations (for the fetch-cost analysis).  Note that when the
leaderboard is needed the parse runs afresh on every iteration, and the
star count is stored by plain dict assignment. -/
def composeStep (tm : TileMaker) (gl : Int → String) (sols : SolutionsByYear)
    (st : List (Int × YearData) × Nat) (lang : Language) (year : Int) :
    Except PyError (List (Int × YearData) × Nat) :=
  if sols.hasYear year then
    let day_to_solution : Int → Option Nat := daySolution sols lang year
    let scores0 :=
      match dictGet st.1 year with
      | some yd => yd.day_to_scores
      | none => []
    let fetched : Except PyError (List (Int × DayScores) × Nat) :=
      if is_leaderboard_needed tm then
        match parse_leaderboard gl year (some sols.runtime)
            (tm.what_to_show_on_right_side = "runtime") with
        | .error e => .error e
        | .ok m => .ok (m, st.2 + 1)
      else .ok (scores0, st.2)
    match fetched with
    | .error e => .error e
    | .ok (day_to_scores, cnt) =>
      let dts0 :=
        match dictGet st.1 year with
        | some yd => yd.day_to_stars
        | none => []
      let dtp0 :=
        match dictGet st.1 year with
        | some yd => yd.day_to_paths
        | none => []
      match exFoldl (dayStep tm day_to_scores day_to_solution lang)
          (dayRange.filter fun d => decide ((year, d) ∈ lang.ran)) (dts0, dtp0) with
      | .error e => .error e
      | .ok (dts, dtp) => .ok (dictInsert st.1 year ⟨day_to_scores, dtp, dts⟩, cnt)
  else .ok st

/-- Source: `itertools.product(languages, years)`: all pairs, language-major. -/
def pairsOf (languages : List Language) (years : List Int) : List (Language × Int) :=
  languages.flatMap fun l => years.map fun y => (l, y)

/-- Source: `compose_solve_data` together with the number of
`parse_leaderboard` calls it performed. -/
def composeAux (tm : TileMaker) (gl : Int → String) (sols : SolutionsByYear)
    (languages : List Language) (years : List Int) :
    Except PyError (List (Int × YearData) × Nat) :=
  exFoldl (fun st p => composeStep tm gl sols st p.1 p.2) (pairsOf languages years) ([], 0)

/-- Source: `TileMaker.compose_solve_data` (`tile_maker.py` lines 212-243): the
`year_to_data` dict of the returned `SolveData`. -/
def compose_solve_data (tm : TileMaker) (gl : Int → String) (sols : SolutionsByYear)
    (languages : List Language) (years : List Int) :
    Except PyError (List (Int × YearData)) :=
  (composeAux tm gl sols languages years).map fun st => st.1

/-- The number of leaderboard fetch/parse calls a composition performs. -/
def parseCallCount (tm : TileMaker) (gl : Int → String) (sols : SolutionsByYear)
    (languages : List Language) (years : List Int) : Except PyError Nat :=
  (composeAux tm gl sols languages years).map fun st => st.2

/-- The stored star count of `(year, day)` in a composed result:
`year_to_data[year].day_to_stars.get(day)`. -/
def starsAt (sd : List (Int × YearData)) (y d : Int) : Option Nat :=
  (dictGet sd y).bind fun yd => dictGet yd.day_to_stars d

/-- The contributing-language list of `(year, day)` in a composed result,
empty when absent. -/
def pathsAt (sd : List (Int × YearData)) (y d : Int) : List Language :=
  match dictGet sd y with
  | none => []
  | some yd => (dictGet yd.day_to_paths d).getD []

/-! ### Year aggregation (`TileMaker.handle_year`) -/

/-- One call to the external rendering collaborator
(`handle_day` → `TileDrawer.draw_tile`): the day's contributing
languages, score record and star count.  The filesystem and drawing
effects of `handle_day` are out of the core's scope; the emitted call is
its observable interface. -/
structure RenderCall where
  day : Int
  solutions : List Language
  day_scores : Option DayScores
  stars : Nat
deriving DecidableEq, Repr

/-- Source: `str.title()` of Python: uppercase a letter that follows a non-letter,
lowercase the other letters. -/
def pyTitle (s : String) : String :=
  String.mk
    (s.data.foldl
        (fun (acc : List Char × Bool) c =>
          if c.isAlpha then
            (acc.1 ++ [if acc.2 then c.toLower else c.toUpper], true)
          else (acc.1 ++ [c], false))
        ([], false)).1

/-- Source: `TileMaker._get_programming_languages_used_daily` (`tile_maker.py`
lines 276-284): running set intersection of the per-day language-name
sets; `None` start, `[]` when no day or empty intersection.  Python's
set iteration order is not part of the contract; the result is modelled
as the intersection set. -/
def get_programming_languages_used_daily (yd : YearData) : Finset String :=
  let inter : Option (Finset String) :=
    yd.day_to_paths.foldl
      (fun acc p =>
        let suffixes : Finset String := (p.2.map fun L => pyTitle L.lang).toFinset
        match acc with
        | none => some suffixes
        | some s => some (s ∩ suffixes))
      none
  match inter with
  | none => ∅
  | some s => s

/-- Source: `sum(year_data.day_to_stars.values())`. -/
def sumStars (m : List (Int × Nat)) : Nat :=
  (m.map fun p => p.2).sum

/-- Source: `max((day for day, stars in ... if stars > 0), default=0)`: the last
day with at least one star.  (Composed star dicts only hold days
`1..25`, so folding `max` from the default `0` agrees with Python's
`max` with `default=0`.) -/
def maxSolvedDay (m : List (Int × Nat)) : Int :=
  (m.filter fun p => p.2 > 0).foldl (fun acc p => max acc p.1) 0

/-- Source: `range(1, n + 1)` over `Int`. -/
def rangeDays (n : Int) : List Int :=
  (List.range' 1 n.toNat).map fun m : Nat => (m : Int)

/-- Source: `TileMaker.fill_empty_days_in_dict` (`tile_maker.py` lines 269-274):
add an empty list for each missing day `1..max_day`. -/
def fill_empty_days (m : List (Int × List Language)) (max_day : Int) :
    List (Int × List Language) :=
  (rangeDays max_day).foldl
    (fun m d => if (dictGet m d).isSome then m else dictInsert m d []) m

/-- One day of `handle_year`'s render loop (`tile_maker.py` lines
298-301): `day_to_solutions.get(day, [])` and `leaderboard.get(day)`
tolerate absence, but the direct `year_data.day_to_stars[day]` lookup
raises `KeyError` when the day has no stored star count. -/
def renderDay (yd : YearData) (day_to_solutions : List (Int × List Language))
    (acc : List RenderCall) (d : Int) : Except PyError (List RenderCall) :=
  match dictGet yd.day_to_stars d with
  | none => .error (.keyError (toString d))
  | some stars =>
    .ok (acc ++ [⟨d, (dictGet day_to_solutions d).getD [],
      dictGet yd.day_to_scores d, stars⟩])

/-- Source: `TileMaker.handle_year` (`tile_maker.py` lines 286-309), restricted to
its data flow: the year's total stars, the languages used on every day,
and the per-day render calls for days `1..max_day`. -/
def handle_year (tm : TileMaker) (yd : YearData) :
    Except PyError (Nat × Finset String × List RenderCall) :=
  let stars_total := sumStars yd.day_to_stars
  let daily := get_programming_languages_used_daily yd
  let max_solved_day := maxSolvedDay yd.day_to_stars
  let max_day : Int := if tm.create_all_days then 25 else max_solved_day
  let day_to_solutions := fill_empty_days yd.day_to_paths max_day
  match exFoldl (renderDay yd day_to_solutions) (rangeDays max_day) [] with
  | .error e => .error e
  | .ok calls => .ok (stars_total, daily, calls)

/-! ### Observers of the composition

`compose_solve_data` decides the stars of a `(language, year, day)`
triple from data that does not depend on the running state: the scores
dict it uses is either a fresh `parse_leaderboard` result (a pure
function of the year) or the stored dict, which under a
no-leaderboard configuration is always empty.  `decisionE` names that
per-triple decision. -/

/-- The scores dict `composeStep` uses for year `y`: the fresh parse when
the leaderboard is needed, the (always empty) stored dict otherwise. -/
def scoresFor (tm : TileMaker) (gl : Int → String) (sols : SolutionsByYear) (y : Int) :
    Except PyError (List (Int × DayScores)) :=
  if is_leaderboard_needed tm then
    parse_leaderboard gl y (some sols.runtime) (tm.what_to_show_on_right_side = "runtime")
  else .ok []

/-- The Star-Policy decision `compose_solve_data` makes for one
`(language, year, day)` triple. -/
def decisionE (tm : TileMaker) (gl : Int → String) (sols : SolutionsByYear)
    (lang : Language) (y d : Int) : Except PyError Nat :=
  match scoresFor tm gl sols y with
  | .error e => .error e
  | .ok sc => get_stars tm (dictGet sc d) (daySolution sols lang y d)

/-- The decided star count, when the decision succeeds. -/
def decideVal (tm : TileMaker) (gl : Int → String) (sols : SolutionsByYear)
    (lang : Language) (y d : Int) : Nat :=
  match decisionE tm gl sols lang y d with
  | .ok n => n
  | .error _ => 0

/-! ### Concrete fixtures

Small concrete instances used to evaluate the embedded code at specific
inputs: documents in the two leaderboard eras, languages and solution
indexes exercising the composition. -/

/-- A post-cutoff document whose table region is the single row
`"5 - 99 888"`. -/
def docPost : String :=
  "<span class=\"leaderboard-daydesc-both\">-Part 2-</span>\n5 - 99 888\n</pre>"

/-- A pre-cutoff document with one fully-populated 6-field row. -/
def docPreFull : String :=
  "<span class=\"leaderboard-daydesc-both\"> Time Rank Score</span>\n5 00:12:34 123 456 01:02:03 45 678\n</pre>"

/-- A pre-cutoff document with one single-part (3-field) row. -/
def docPreOne : String :=
  "<span class=\"leaderboard-daydesc-both\"> Time Rank Score</span>\n5 00:12:34 123 456\n</pre>"

/-- A pre-cutoff document whose 3-field row has a dash in the middle of
the part-1 triple. -/
def docPreDash : String :=
  "<span class=\"leaderboard-daydesc-both\"> Time Rank Score</span>\n5 - 123 456\n</pre>"

/-- A pre-cutoff document whose rows' dashes cover whole part triples. -/
def docPreAtomic : String :=
  "<span class=\"leaderboard-daydesc-both\"> Time Rank Score</span>\n5 - - - 01:02:03 45 678\n</pre>"

/-- The local-evidence-only configuration: resolved `what_to_show` is
`checkmark` and the solved-rule is `file_exists`, so no leaderboard
fetch is needed. -/
def localTM : TileMaker := ⟨"checkmark", "file_exists", false⟩

/-- A configuration that needs the leaderboard: solved-rule `both`. -/
def bothTM : TileMaker := ⟨"checkmark", "both", false⟩

/-- A language with two local solution files for day 3 of 2020. -/
def langTwoFiles : Language := ⟨"Python", [(2020, 3)]⟩

/-- A language with one local solution file for day 3 of 2020. -/
def langOneFile : Language := ⟨"Rust", [(2020, 3)]⟩

/-- A solution index for year 2020: `langTwoFiles` has two files and
`langOneFile` one file for day 3. -/
def solsDay3 : SolutionsByYear :=
  ⟨fun y => y == 2020,
   fun _ =>
     ⟨fun _ => true,
      fun L d => if d = 3 then (if L.lang = "Python" then some 2 else some 1) else none,
      fun _ => none⟩,
   emptyTracker⟩

/-- A language that attempted only day 5 of 2020, with both parts solved
locally. -/
def langDayFive : Language := ⟨"Python", [(2020, 5)]⟩

/-- A solution index for year 2020 where only day 5 has solution files. -/
def solsDayFive : SolutionsByYear :=
  ⟨fun y => y == 2020,
   fun _ => ⟨fun _ => true, fun _ d => if d = 5 then some 2 else none, fun _ => none⟩,
   emptyTracker⟩

/-- A solution index containing years 2020 and 2021, with no local files. -/
def solsTwoYears : SolutionsByYear :=
  ⟨fun y => y == 2020 || y == 2021,
   fun _ => ⟨fun _ => true, fun _ _ => none, fun _ => none⟩,
   emptyTracker⟩

/-- A fetcher serving a well-formed document for 2021 and garbage (no
leaderboard region) for every other year. -/
def glMixed : Int → String := fun y => if y == 2021 then docPreOne else "garbage"

/-- A fetcher whose documents are never consulted (the local-only
configuration performs no fetch). -/
def glUnused : Int → String := fun _ => ""

/-- A language that attempted only day 25 of 2020. -/
def langDay25 : Language := ⟨"Python", [(2020, 25)]⟩

/-- A solution index for 2020 where day 25 has exactly one solution
file. -/
def solsDay25 : SolutionsByYear :=
  ⟨fun y => y == 2020,
   fun _ => ⟨fun _ => true, fun _ d => if d = 25 then some 1 else none, fun _ => none⟩,
   emptyTracker⟩

/-- The number of populated (non-absent) leaf fields of a score
record. -/
def populatedCount (ds : DayScores) : Nat :=
  [ds.time1, ds.rank1, ds.score1, ds.time2, ds.rank2, ds.score2].countP Option.isSome

/-- A row whose dash placeholders cover whole part triples: among its
score tokens, the first three are all dashes or all non-dashes, and
likewise the rest.  (Real leaderboard rows are emitted per part, so
their dashes are triple-atomic; the parser itself does not require
this.) -/
def atomicLine (line : List Char) : Bool :=
  match pyTokens (trimL line) with
  | [] => true
  | _ :: scores =>
    (((scores.take 3).all fun t => t == ['-']) ||
      ((scores.take 3).all fun t => !(t == ['-']))) &&
    (((scores.drop 3).all fun t => t == ['-']) ||
      ((scores.drop 3).all fun t => !(t == ['-'])))

/-! ## Lemmas about the Python dict and loop primitives -/

theorem dictGet_insert_self (m : List (Int × α)) (k : Int) (v : α) :
    dictGet (dictInsert m k v) k = some v := by
  induction m with
  | nil => simp [dictInsert, dictGet]
  | cons p rest ih =>
    obtain ⟨k', v'⟩ := p
    by_cases h : k' = k
    · simp [dictInsert, dictGet, h]
    · simp [dictInsert, dictGet, h, ih]

theorem dictGet_insert_ne (m : List (Int × α)) {k k' : Int} (v : α) (h : k' ≠ k) :
    dictGet (dictInsert m k v) k' = dictGet m k' := by
  induction m with
  | nil => simp [dictInsert, dictGet, h, Ne.symm h]
  | cons p rest ih =>
    obtain ⟨k'', v''⟩ := p
    by_cases h2 : k'' = k
    · subst h2
      simp [dictInsert, dictGet, h, Ne.symm h]
    · simp [dictInsert, dictGet, h2, ih]

theorem mem_dictInsert {m : List (Int × α)} {k : Int} {v : α} {p : Int × α}
    (h : p ∈ dictInsert m k v) : p = (k, v) ∨ p ∈ m := by
  induction m with
  | nil => simpa [dictInsert] using h
  | cons q rest ih =>
    obtain ⟨k', v'⟩ := q
    by_cases h2 : k' = k
    · simp only [dictInsert, if_pos h2, List.mem_cons] at h
      rcases h with h | h
      · exact Or.inl h
      · exact Or.inr (List.mem_cons_of_mem _ h)
    · simp only [dictInsert, if_neg h2, List.mem_cons] at h
      rcases h with h | h
      · exact Or.inr (by simp [h])
      · rcases ih h with h | h
        · exact Or.inl h
        · exact Or.inr (List.mem_cons_of_mem _ h)

theorem exFoldl_append (f : β → α → Except PyError β) (a b : List α) (s : β) :
    exFoldl f (a ++ b) s =
      match exFoldl f a s with
      | .error e => .error e
      | .ok s' => exFoldl f b s' := by
  induction a generalizing s with
  | nil => simp [exFoldl]
  | cons x xs ih =>
    simp only [List.cons_append, exFoldl]
    cases f s x <;> simp [ih]

/-- A loop whose body always raises at some element of the list makes the
whole loop raise. -/
theorem exFoldl_error_of_mem (f : β → α → Except PyError β) {l : List α} {x : α}
    (hx : x ∈ l) (herr : ∀ s, ∃ e, f s x = .error e) (s : β) :
    ∃ e, exFoldl f l s = .error e := by
  induction l generalizing s with
  | nil => cases hx
  | cons y ys ih =>
    rcases List.mem_cons.mp hx with h | h
    · subst h
      obtain ⟨e, he⟩ := herr s
      exact ⟨e, by simp [exFoldl, he]⟩
    · cases hfy : f s y with
      | error e => exact ⟨e, by simp [exFoldl, hfy]⟩
      | ok s' =>
        obtain ⟨e, he⟩ := ih h s'
        exact ⟨e, by simp [exFoldl, hfy, he]⟩

/-- A loop whose body never raises on the list's elements never raises. -/
theorem exFoldl_ok_of_all (f : β → α → Except PyError β) {l : List α}
    (hok : ∀ x ∈ l, ∀ s, ∃ s', f s x = .ok s') (s : β) :
    ∃ s', exFoldl f l s = .ok s' := by
  induction l generalizing s with
  | nil => exact ⟨s, rfl⟩
  | cons y ys ih =>
    obtain ⟨s1, hs1⟩ := hok y (List.mem_cons_self _ _) s
    obtain ⟨s', hs'⟩ := ih (fun x hx => hok x (List.mem_cons_of_mem _ hx)) s1
    exact ⟨s', by simp [exFoldl, hs1, hs']⟩

/-! ## Lemmas about the Star Policy and the day loop -/

theorem get_stars_eq (tm : TileMaker) (h : ruleValid tm)
    (solved : Option DayScores) (solution : Option Nat) :
    get_stars tm solved solution = .ok (starsValue tm solved solution) := by
  rcases h with h | h | h | h <;> simp [get_stars, starsValue, h]

/-- Characterization of the day loop of `composeStep`: it never raises
under a valid rule, it stores the adjusted decision for exactly the
looped days, and it appends the language to exactly those days'
contributing lists. -/
theorem dayFold_char (tm : TileMaker) (h : ruleValid tm) (SC : List (Int × DayScores))
    (sol : Int → Option Nat) (l : Language) :
    ∀ ds : List Int, ds.Nodup →
      ∀ st : List (Int × Nat) × List (Int × List Language),
        ∃ st', exFoldl (dayStep tm SC sol l) ds st = .ok st' ∧
          (∀ d, dictGet st'.1 d =
            if d ∈ ds then some (adjustStars d (starsValue tm (dictGet SC d) (sol d)))
            else dictGet st.1 d) ∧
          (∀ d, (dictGet st'.2 d).getD [] =
            if d ∈ ds then (dictGet st.2 d).getD [] ++ [l]
            else (dictGet st.2 d).getD []) := by
  intro ds
  induction ds with
  | nil => exact fun _ st => ⟨st, rfl, by simp, by simp⟩
  | cons d0 rest ih =>
    intro hnd st
    rw [List.nodup_cons] at hnd
    set st1 : List (Int × Nat) × List (Int × List Language) :=
      (dictInsert st.1 d0 (adjustStars d0 (starsValue tm (dictGet SC d0) (sol d0))),
        dictInsert st.2 d0 ((dictGet st.2 d0).getD [] ++ [l])) with hst1
    have hstep : dayStep tm SC sol l st d0 = .ok st1 := by
      simp [dayStep, get_stars_eq tm h, hst1]
    obtain ⟨st', hfold, hstars, hpaths⟩ := ih hnd.2 st1
    refine ⟨st', by simp [exFoldl, hstep, hfold], fun d => ?_, fun d => ?_⟩
    · by_cases hdr : d ∈ rest
      · simp [hstars d, hdr, List.mem_cons]
      · by_cases hd0 : d = d0
        · subst hd0
          simp [hstars d, hdr, hst1, dictGet_insert_self]
        · simp [hstars d, hdr, hd0, hst1, dictGet_insert_ne _ _ hd0]
    · by_cases hdr : d ∈ rest
      · have hd0 : d ≠ d0 := fun he => hnd.1 (he ▸ hdr)
        simp [hpaths d, hdr, hst1, dictGet_insert_ne _ _ hd0, List.mem_cons]
      · by_cases hd0 : d = d0
        · subst hd0
          simp [hpaths d, hdr, hst1, dictGet_insert_self]
        · simp [hpaths d, hdr, hd0, hst1, dictGet_insert_ne _ _ hd0]

/-! ## Lemmas about one `(language, year)` composition step -/

theorem dayRange_nodup : dayRange.Nodup := by decide

theorem composeStep_skip (tm : TileMaker) (gl : Int → String) (sols : SolutionsByYear)
    (st : List (Int × YearData) × Nat) (l : Language) {year : Int}
    (hh : sols.hasYear year = false) :
    composeStep tm gl sols st l year = .ok st := by
  simp [composeStep, hh]

theorem composeStep_shape {tm : TileMaker} {gl : Int → String} {sols : SolutionsByYear}
    {st st' : List (Int × YearData) × Nat} {l : Language} {year : Int}
    (h : composeStep tm gl sols st l year = .ok st') :
    st' = st ∨ ∃ yd cnt, st' = (dictInsert st.1 year yd, cnt) := by
  by_cases hh : sols.hasYear year
  · simp only [composeStep, hh, if_true] at h
    split at h
    · exact absurd h (by simp)
    · split at h
      · exact absurd h (by simp)
      · right
        exact ⟨_, _, (Except.ok.injEq _ _).mp h |>.symm⟩
  · simp only [composeStep, hh, if_false] at h
    exact Or.inl ((Except.ok.injEq _ _).mp h).symm

theorem composeStep_preserve {tm : TileMaker} {gl : Int → String} {sols : SolutionsByYear}
    {st st' : List (Int × YearData) × Nat} {l : Language} {year : Int}
    (h : composeStep tm gl sols st l year = .ok st') {y : Int} (hy : year ≠ y) :
    dictGet st'.1 y = dictGet st.1 y := by
  rcases composeStep_shape h with rfl | ⟨yd, cnt, rfl⟩
  · rfl
  · exact dictGet_insert_ne _ _ (Ne.symm hy)

theorem starsAt_insert (sd : List (Int × YearData)) (y : Int) (yd : YearData) (d : Int) :
    starsAt (dictInsert sd y yd) y d = dictGet yd.day_to_stars d := by
  simp [starsAt, dictGet_insert_self]

theorem pathsAt_insert (sd : List (Int × YearData)) (y : Int) (yd : YearData) (d : Int) :
    pathsAt (dictInsert sd y yd) y d = (dictGet yd.day_to_paths d).getD [] := by
  simp [pathsAt, dictGet_insert_self]

theorem stored_stars_eq (sd : List (Int × YearData)) (y d : Int) :
    dictGet (match dictGet sd y with | some yd => yd.day_to_stars | none => []) d =
      starsAt sd y d := by
  unfold starsAt
  cases h : dictGet sd y <;> simp [h, dictGet]

theorem stored_paths_eq (sd : List (Int × YearData)) (y d : Int) :
    (dictGet (match dictGet sd y with | some yd => yd.day_to_paths | none => []) d).getD [] =
      pathsAt sd y d := by
  unfold pathsAt
  cases h : dictGet sd y <;> simp [h, dictGet]

theorem mem_daysFilter {year d : Int} {l : Language} :
    (d ∈ dayRange.filter fun d => decide ((year, d) ∈ l.ran)) ↔
      d ∈ dayRange ∧ (year, d) ∈ l.ran := by
  simp [List.mem_filter]

/-- Characterization of one composition step at a year of interest:
under a valid rule and an available scores dict it succeeds, stores the
adjusted decision for exactly the attempted days, appends the language
to exactly those days' lists, and records the scores dict it used. -/
theorem composeStep_at_y {tm : TileMaker} {gl : Int → String} {sols : SolutionsByYear}
    (hrule : ruleValid tm) {y : Int} (hhas : sols.hasYear y = true)
    {SC : List (Int × DayScores)} (hSC : scoresFor tm gl sols y = .ok SC)
    (st : List (Int × YearData) × Nat) (l : Language)
    (hst : is_leaderboard_needed tm = false →
      ∀ yd, dictGet st.1 y = some yd → yd.day_to_scores = []) :
    ∃ st', composeStep tm gl sols st l y = .ok st' ∧
      (∀ d, d ∈ dayRange →
        starsAt st'.1 y d =
          if (y, d) ∈ l.ran then
            some (adjustStars d (starsValue tm (dictGet SC d) (daySolution sols l y d)))
          else starsAt st.1 y d) ∧
      (∀ d, d ∈ dayRange →
        pathsAt st'.1 y d =
          if (y, d) ∈ l.ran then pathsAt st.1 y d ++ [l] else pathsAt st.1 y d) ∧
      (∀ yd, dictGet st'.1 y = some yd → yd.day_to_scores = SC) := by
  have hnd : (dayRange.filter fun d => decide ((y, d) ∈ l.ran)).Nodup :=
    dayRange_nodup.filter _
  obtain ⟨st2, hfold, hstars, hpaths⟩ :=
    dayFold_char tm hrule SC (daySolution sols l y) l _ hnd
      (match dictGet st.1 y with | some yd => yd.day_to_stars | none => [],
        match dictGet st.1 y with | some yd => yd.day_to_paths | none => [])
  obtain ⟨dts, dtp⟩ := st2
  have hconc :
      (∀ d, d ∈ dayRange →
        dictGet dts d =
          if (y, d) ∈ l.ran then
            some (adjustStars d (starsValue tm (dictGet SC d) (daySolution sols l y d)))
          else starsAt st.1 y d) ∧
      (∀ d, d ∈ dayRange →
        (dictGet dtp d).getD [] =
          if (y, d) ∈ l.ran then pathsAt st.1 y d ++ [l] else pathsAt st.1 y d) := by
    constructor
    · intro d hd
      have := hstars d
      by_cases hr : (y, d) ∈ l.ran
      · rw [this, if_pos (mem_daysFilter.mpr ⟨hd, hr⟩), if_pos hr]
      · rw [this, if_neg (fun hm => hr (mem_daysFilter.mp hm).2), if_neg hr,
          stored_stars_eq]
    · intro d hd
      have := hpaths d
      by_cases hr : (y, d) ∈ l.ran
      · rw [this, if_pos (mem_daysFilter.mpr ⟨hd, hr⟩), if_pos hr, stored_paths_eq]
      · rw [this, if_neg (fun hm => hr (mem_daysFilter.mp hm).2), if_neg hr,
          stored_paths_eq]
  by_cases hlb : is_leaderboard_needed tm = true
  · have hparse : parse_leaderboard gl y (some sols.runtime)
        (tm.what_to_show_on_right_side = "runtime") = .ok SC := by
      simpa [scoresFor, hlb] using hSC
    refine ⟨(dictInsert st.1 y ⟨SC, dtp, dts⟩, st.2 + 1), ?_, ?_, ?_, ?_⟩
    · simp only [composeStep, hhas, if_true, hlb, hparse, hfold]
    · intro d hd
      rw [starsAt_insert]
      exact hconc.1 d hd
    · intro d hd
      rw [pathsAt_insert]
      exact hconc.2 d hd
    · intro yd hyd
      rw [dictGet_insert_self] at hyd
      cases hyd
      rfl
  · have hlb' : is_leaderboard_needed tm = false := by
      simpa using hlb
    have hSCnil : SC = [] := by
      have := hSC
      rw [scoresFor, hlb'] at this
      simpa using this.symm
    have hscores0 :
        (match dictGet st.1 y with | some yd => yd.day_to_scores | none => []) = SC := by
      cases hent : dictGet st.1 y with
      | none => simpa using hSCnil.symm
      | some yd => simpa using (hst hlb' yd hent).trans hSCnil.symm
    refine ⟨(dictInsert st.1 y ⟨SC, dtp, dts⟩, st.2), ?_, ?_, ?_, ?_⟩
    · simp only [composeStep, hhas, if_true, hlb', Bool.false_eq_true, if_false, hscores0]
      rw [hfold]
    · intro d hd
      rw [starsAt_insert]
      exact hconc.1 d hd
    · intro d hd
      rw [pathsAt_insert]
      exact hconc.2 d hd
    · intro yd hyd
      rw [dictGet_insert_self] at hyd
      cases hyd
      rfl

theorem composeStep_ok (tm : TileMaker) (gl : Int → String) (sols : SolutionsByYear)
    (hrule : ruleValid tm) (st : List (Int × YearData) × Nat) (l : Language) (year : Int)
    (hp : sols.hasYear year = true → is_leaderboard_needed tm = true →
      ∃ S, parse_leaderboard gl year (some sols.runtime)
        (tm.what_to_show_on_right_side = "runtime") = .ok S) :
    ∃ st', composeStep tm gl sols st l year = .ok st' := by
  by_cases hh : sols.hasYear year = true
  · by_cases hlb : is_leaderboard_needed tm = true
    · obtain ⟨S, hS⟩ := hp hh hlb
      obtain ⟨st2, hfold, -, -⟩ :=
        dayFold_char tm hrule S (daySolution sols l year) l
          (dayRange.filter fun dd => decide ((year, dd) ∈ l.ran))
          (dayRange_nodup.filter _)
          (match dictGet st.1 year with | some yd => yd.day_to_stars | none => [],
            match dictGet st.1 year with | some yd => yd.day_to_paths | none => [])
      obtain ⟨dts, dtp⟩ := st2
      refine ⟨(dictInsert st.1 year ⟨S, dtp, dts⟩, st.2 + 1), ?_⟩
      simp only [composeStep, hh, if_true, hlb, hS, hfold]
    · have hlb' : is_leaderboard_needed tm = false := by simpa using hlb
      obtain ⟨st2, hfold, -, -⟩ :=
        dayFold_char tm hrule
          (match dictGet st.1 year with | some yd => yd.day_to_scores | none => [])
          (daySolution sols l year) l
          (dayRange.filter fun dd => decide ((year, dd) ∈ l.ran))
          (dayRange_nodup.filter _)
          (match dictGet st.1 year with | some yd => yd.day_to_stars | none => [],
            match dictGet st.1 year with | some yd => yd.day_to_paths | none => [])
      obtain ⟨dts, dtp⟩ := st2
      refine ⟨(dictInsert st.1 year
        ⟨match dictGet st.1 year with | some yd => yd.day_to_scores | none => [],
          dtp, dts⟩, st.2), ?_⟩
      simp only [composeStep, hh, if_true, hlb', Bool.false_eq_true, if_false]
      rw [hfold]
  · exact ⟨st, composeStep_skip _ _ _ _ _ (by simpa using hh)⟩

theorem starsAt_congr {a b : List (Int × YearData)} {y : Int}
    (h : dictGet a y = dictGet b y) (d : Int) : starsAt a y d = starsAt b y d := by
  unfold starsAt
  rw [h]

theorem pathsAt_congr {a b : List (Int × YearData)} {y : Int}
    (h : dictGet a y = dictGet b y) (d : Int) : pathsAt a y d = pathsAt b y d := by
  unfold pathsAt
  rw [h]

/-- Effect, on a fixed year `y` and day `d`, of processing one language
over a list of years containing `y` at most once: the `(l, y)` step, if
present, replaces the stored star count for the attempted days and
appends `l` to their lists; the other years' steps do not touch year
`y`. -/
theorem yearsFold_char {tm : TileMaker} {gl : Int → String} {sols : SolutionsByYear}
    (hrule : ruleValid tm) {y d : Int} (hhas : sols.hasYear y = true)
    {SC : List (Int × DayScores)} (hSC : scoresFor tm gl sols y = .ok SC)
    (hd : d ∈ dayRange) (l : Language) :
    ∀ Y : List Int, Y.count y ≤ 1 →
      (∀ y' ∈ Y, sols.hasYear y' = true → is_leaderboard_needed tm = true →
        ∃ S, parse_leaderboard gl y' (some sols.runtime)
          (tm.what_to_show_on_right_side = "runtime") = .ok S) →
      ∀ st : List (Int × YearData) × Nat,
        (is_leaderboard_needed tm = false →
          ∀ yd, dictGet st.1 y = some yd → yd.day_to_scores = []) →
        ∃ st',
          exFoldl (fun s p => composeStep tm gl sols s p.1 p.2)
            (Y.map fun yy => (l, yy)) st = .ok st' ∧
          (starsAt st'.1 y d =
            if Y.count y = 1 ∧ (y, d) ∈ l.ran then
              some (adjustStars d (starsValue tm (dictGet SC d) (daySolution sols l y d)))
            else starsAt st.1 y d) ∧
          (pathsAt st'.1 y d =
            if Y.count y = 1 ∧ (y, d) ∈ l.ran then pathsAt st.1 y d ++ [l]
            else pathsAt st.1 y d) ∧
          (is_leaderboard_needed tm = false →
            ∀ yd, dictGet st'.1 y = some yd → yd.day_to_scores = []) := by
  intro Y
  induction Y with
  | nil =>
    intro _ _ st hst
    exact ⟨st, rfl, by simp, by simp, hst⟩
  | cons y' Y' ih =>
    intro hc hok st hst
    by_cases hy' : y' = y
    · subst hy'
      have hcY' : Y'.count y' = 0 := by
        have := hc
        rw [List.count_cons_self] at this
        omega
      obtain ⟨st1, hstep, hstars1, hpaths1, hsc1⟩ :=
        composeStep_at_y hrule hhas hSC st l hst
      have hst1 : is_leaderboard_needed tm = false →
          ∀ yd, dictGet st1.1 y' = some yd → yd.day_to_scores = [] := by
        intro hlb yd hyd
        have hSCnil : SC = [] := by
          have := hSC
          rw [scoresFor, hlb] at this
          simpa using this.symm
        exact (hsc1 yd hyd).trans hSCnil
      obtain ⟨st', hfold', hstars', hpaths', hinv'⟩ :=
        ih (by omega) (fun yy hyy => hok yy (List.mem_cons_of_mem _ hyy)) st1 hst1
      have hcnt : (y' :: Y').count y' = 1 := by
        rw [List.count_cons_self]
        omega
      refine ⟨st', by simp [exFoldl, hstep, hfold'], ?_, ?_, hinv'⟩
      · rw [hstars', if_neg (by simp [hcY']), hstars1 d hd, hcnt]
        simp
      · rw [hpaths', if_neg (by simp [hcY']), hpaths1 d hd, hcnt]
        simp
    · obtain ⟨st1, hstep⟩ :=
        composeStep_ok tm gl sols hrule st l y'
          (hok y' (List.mem_cons_self _ _))
      have hpres : dictGet st1.1 y = dictGet st.1 y :=
        composeStep_preserve hstep hy'
      have hst1 : is_leaderboard_needed tm = false →
          ∀ yd, dictGet st1.1 y = some yd → yd.day_to_scores = [] := by
        intro hlb yd hyd
        exact hst hlb yd (hpres ▸ hyd)
      obtain ⟨st', hfold', hstars', hpaths', hinv'⟩ :=
        ih (by rw [List.count_cons_of_ne (fun h => hy' h.symm)] at hc; exact hc)
          (fun yy hyy => hok yy (List.mem_cons_of_mem _ hyy)) st1 hst1
      have hcnt : (y' :: Y').count y = Y'.count y :=
        List.count_cons_of_ne (fun h => hy' h.symm) _
      refine ⟨st', by simp [exFoldl, hstep, hfold'], ?_, ?_, hinv'⟩
      · rw [hstars', starsAt_congr hpres, hcnt]
      · rw [hpaths', pathsAt_congr hpres, hcnt]

theorem elim_getLast?_cons (a : α) (l : List α) (b c : β) (f : α → β) :
    (a :: l).getLast?.elim b f = (a :: l).getLast?.elim c f := by
  induction l generalizing a with
  | nil => simp
  | cons x xs ih =>
    rw [List.getLast?_cons_cons]
    exact ih x

/-- Effect of the whole `languages × years` product fold on a fixed
`(year, day)`: the stored star count comes from the *last* attempting
language (plain dict assignment overwrites earlier decisions), and the
contributing list collects all attempting languages in processing
order. -/
theorem langsFold_char {tm : TileMaker} {gl : Int → String} {sols : SolutionsByYear}
    (hrule : ruleValid tm) {y d : Int} (hhas : sols.hasYear y = true)
    {SC : List (Int × DayScores)} (hSC : scoresFor tm gl sols y = .ok SC)
    (hd : d ∈ dayRange) (years : List Int) (hcy : years.count y = 1)
    (hok : ∀ y' ∈ years, sols.hasYear y' = true → is_leaderboard_needed tm = true →
      ∃ S, parse_leaderboard gl y' (some sols.runtime)
        (tm.what_to_show_on_right_side = "runtime") = .ok S) :
    ∀ (langs : List Language) (st : List (Int × YearData) × Nat),
      (is_leaderboard_needed tm = false →
        ∀ yd, dictGet st.1 y = some yd → yd.day_to_scores = []) →
      ∃ st',
        exFoldl (fun s p => composeStep tm gl sols s p.1 p.2)
          (pairsOf langs years) st = .ok st' ∧
        starsAt st'.1 y d =
          ((langs.filter fun L => decide ((y, d) ∈ L.ran)).getLast?.elim
            (starsAt st.1 y d) fun L =>
              some (adjustStars d
                (starsValue tm (dictGet SC d) (daySolution sols L y d)))) ∧
        pathsAt st'.1 y d =
          pathsAt st.1 y d ++ langs.filter fun L => decide ((y, d) ∈ L.ran) := by
  intro langs
  induction langs with
  | nil =>
    intro st hst
    exact ⟨st, rfl, by simp [pairsOf], by simp [pairsOf]⟩
  | cons l ls ih =>
    intro st hst
    have hsplit : pairsOf (l :: ls) years =
        (years.map fun yy => (l, yy)) ++ pairsOf ls years := by
      simp [pairsOf]
    obtain ⟨st1, hstep, hstars1, hpaths1, hinv1⟩ :=
      yearsFold_char hrule hhas hSC hd l years (le_of_eq hcy) hok st hst
    obtain ⟨st', hfold', hstars', hpaths'⟩ := ih st1 hinv1
    refine ⟨st', ?_, ?_, ?_⟩
    · rw [hsplit, exFoldl_append, hstep]
      exact hfold'
    · rw [hstars', hstars1]
      by_cases hr : (y, d) ∈ l.ran
      · rw [if_pos ⟨hcy, hr⟩, List.filter_cons, if_pos (by simpa using hr)]
        cases hfl : ls.filter fun L => decide ((y, d) ∈ L.ran) with
        | nil => simp
        | cons e rest =>
          rw [List.getLast?_cons_cons]
          exact elim_getLast?_cons e rest _ _ _
      · rw [if_neg (by simp [hr]), List.filter_cons, if_neg (by simp [hr])]
    · rw [hpaths', hpaths1]
      by_cases hr : (y, d) ∈ l.ran
      · rw [if_pos ⟨hcy, hr⟩, List.filter_cons, if_pos (by simpa using hr)]
        simp
      · rw [if_neg (by simp [hr]), List.filter_cons, if_neg (by simp [hr])]

/-- Characterization of `compose_solve_data` at a fixed `(year, day)`:
under a valid rule, with the year present in the solution index exactly
once in the processed years and all needed leaderboard parses
succeeding, composition succeeds; the stored star count is the adjusted
decision of the *last* language (in processing order) that attempted the
day, and the contributing list is exactly the attempting languages in
processing order. -/
theorem compose_char {tm : TileMaker} {gl : Int → String} {sols : SolutionsByYear}
    (hrule : ruleValid tm) {y d : Int} (hhas : sols.hasYear y = true)
    {SC : List (Int × DayScores)} (hSC : scoresFor tm gl sols y = .ok SC)
    (hd : d ∈ dayRange) (langs : List Language) (years : List Int)
    (hcy : years.count y = 1)
    (hok : ∀ y' ∈ years, sols.hasYear y' = true → is_leaderboard_needed tm = true →
      ∃ S, parse_leaderboard gl y' (some sols.runtime)
        (tm.what_to_show_on_right_side = "runtime") = .ok S) :
    ∃ sd, compose_solve_data tm gl sols langs years = .ok sd ∧
      starsAt sd y d =
        ((langs.filter fun L => decide ((y, d) ∈ L.ran)).getLast?.map fun L =>
          adjustStars d (starsValue tm (dictGet SC d) (daySolution sols L y d))) ∧
      pathsAt sd y d = langs.filter fun L => decide ((y, d) ∈ L.ran) := by
  obtain ⟨st', hfold, hstars, hpaths⟩ :=
    langsFold_char hrule hhas hSC hd years hcy hok langs ([], 0)
      (by intro _ yd hyd; cases hyd)
  refine ⟨st'.1, ?_, ?_, by simpa [pathsAt, dictGet] using hpaths⟩
  · rw [compose_solve_data, composeAux, hfold]
    rfl
  · rw [hstars]
    cases (langs.filter fun L => decide ((y, d) ∈ L.ran)).getLast? <;>
      simp [starsAt, dictGet]

theorem decisionE_eq {tm : TileMaker} {gl : Int → String} {sols : SolutionsByYear}
    (hrule : ruleValid tm) {y : Int} {SC : List (Int × DayScores)}
    (hSC : scoresFor tm gl sols y = .ok SC) (L : Language) (d : Int) :
    decisionE tm gl sols L y d =
      .ok (starsValue tm (dictGet SC d) (daySolution sols L y d)) := by
  rw [decisionE, hSC]
  exact get_stars_eq tm hrule _ _

theorem decideVal_eq {tm : TileMaker} {gl : Int → String} {sols : SolutionsByYear}
    (hrule : ruleValid tm) {y : Int} {SC : List (Int × DayScores)}
    (hSC : scoresFor tm gl sols y = .ok SC) (L : Language) (d : Int) :
    decideVal tm gl sols L y d =
      starsValue tm (dictGet SC d) (daySolution sols L y d) := by
  rw [decideVal, decisionE_eq hrule hSC]

/-! ## Lemmas about the year aggregation and the parsed records -/

theorem mem_rangeDays {n d : Int} (h : d ∈ rangeDays n) : 1 ≤ d ∧ d ≤ n := by
  unfold rangeDays at h
  obtain ⟨m, hm, rfl⟩ := List.mem_map.mp h
  rw [List.mem_range'_1] at hm
  omega

/-- Members of the dict built by the parser's row fold each come from one
processed line. -/
theorem exFoldl_dict_mem (f : List Char → Except PyError (Int × DayScores)) :
    ∀ (rows : List (List Char)) (m0 m : List (Int × DayScores)),
      exFoldl
        (fun acc line =>
          match f line with
          | .error e => .error e
          | .ok (d, rec) => .ok (dictInsert acc d rec))
        rows m0 = .ok m →
      ∀ p ∈ m, p ∈ m0 ∨ ∃ line ∈ rows, f line = .ok p := by
  intro rows
  induction rows with
  | nil =>
    intro m0 m h p hp
    cases h
    exact Or.inl hp
  | cons r rs ih =>
    intro m0 m h p hp
    cases hf : f r with
    | error e => rw [exFoldl, hf] at h; cases h
    | ok q =>
      obtain ⟨d, rec⟩ := q
      rw [exFoldl, hf] at h
      rcases ih _ _ h p hp with hin | ⟨line, hl, hfl⟩
      · rcases mem_dictInsert hin with heq | hin0
        · exact Or.inr ⟨r, List.mem_cons_self _ _, heq ▸ hf⟩
        · exact Or.inl hin0
      · exact Or.inr ⟨line, List.mem_cons_of_mem _ hl, hfl⟩

theorem countSome_convert_allDash {toks : List (List Char)}
    (h : ∀ t ∈ toks, t = ['-']) :
    (convertScores toks).countP Option.isSome = 0 := by
  rw [List.countP_eq_zero]
  intro a ha
  rw [convertScores, List.mem_map] at ha
  obtain ⟨t, ht, rfl⟩ := ha
  rw [if_pos (h t ht)]
  simp

theorem countSome_convert_noDash {toks : List (List Char)}
    (h : ∀ t ∈ toks, ¬t = ['-']) :
    (convertScores toks).countP Option.isSome = toks.length := by
  have hlen : (convertScores toks).length = toks.length := List.length_map _ _
  rw [← hlen, List.countP_eq_length]
  intro a ha
  rw [convertScores, List.mem_map] at ha
  obtain ⟨t, ht, rfl⟩ := ha
  rw [if_neg (h t ht)]
  simp

theorem populatedCount_three (a b c : Option String) :
    populatedCount ⟨a, b, c, none, none, none⟩ = [a, b, c].countP Option.isSome := by
  simp [populatedCount, List.countP_cons]

theorem populatedCount_six (a b c t r s : Option String) :
    populatedCount ⟨a, b, c, t, r, s⟩ = [a, b, c, t, r, s].countP Option.isSome := rfl

/-- A triple-atomic token list of length 3 or 6 converts to a record
field list whose populated count is 0, 3 or 6. -/
theorem buildRecord_populated {day : List Char} {raw : List (List Char)} {rec : DayScores}
    (hat : ((raw.take 3).all fun t => t == ['-']) = true ∨
        ((raw.take 3).all fun t => !(t == ['-'])) = true)
    (hat2 : ((raw.drop 3).all fun t => t == ['-']) = true ∨
        ((raw.drop 3).all fun t => !(t == ['-'])) = true)
    (h : buildRecord day (convertScores raw) = .ok rec) :
    populatedCount rec = 0 ∨ populatedCount rec = 3 ∨ populatedCount rec = 6 := by
  have hat1' : (∀ t ∈ raw.take 3, t = ['-']) ∨ (∀ t ∈ raw.take 3, ¬t = ['-']) := by
    rcases hat with h1 | h1
    · exact Or.inl (by simpa using h1)
    · exact Or.inr (by simpa using h1)
  have hat2' : (∀ t ∈ raw.drop 3, t = ['-']) ∨ (∀ t ∈ raw.drop 3, ¬t = ['-']) := by
    rcases hat2 with h1 | h1
    · exact Or.inl (by simpa using h1)
    · exact Or.inr (by simpa using h1)
  have hcount1 : (convertScores (raw.take 3)).countP Option.isSome = 0 ∨
      (convertScores (raw.take 3)).countP Option.isSome = (raw.take 3).length := by
    rcases hat1' with h1 | h1
    · exact Or.inl (countSome_convert_allDash h1)
    · exact Or.inr (countSome_convert_noDash h1)
  have hcount2 : (convertScores (raw.drop 3)).countP Option.isSome = 0 ∨
      (convertScores (raw.drop 3)).countP Option.isSome = (raw.drop 3).length := by
    rcases hat2' with h1 | h1
    · exact Or.inl (countSome_convert_allDash h1)
    · exact Or.inr (countSome_convert_noDash h1)
  have hsplit : (convertScores raw).countP Option.isSome =
      (convertScores (raw.take 3)).countP Option.isSome +
        (convertScores (raw.drop 3)).countP Option.isSome := by
    conv =>
      lhs
      rw [← List.take_append_drop 3 raw]
    rw [convertScores, List.map_append, List.countP_append]
    rfl
  unfold buildRecord at h
  split at h
  · rename_i a b c heq
    cases h
    have hlen : raw.length = 3 := by
      have := congrArg List.length heq
      simpa [convertScores] using this
    have htake : raw.take 3 = raw := List.take_of_length_le (by omega)
    rw [populatedCount_three, show [a, b, c] = convertScores raw from heq.symm]
    rw [htake] at hcount1
    rcases hcount1 with h1 | h1
    · exact Or.inl h1
    · exact Or.inr (Or.inl (by rw [h1, hlen]))
  · rename_i a b c t r s heq
    cases h
    have hlen : raw.length = 6 := by
      have := congrArg List.length heq
      simpa [convertScores] using this
    have hlt : (raw.take 3).length = 3 := by
      rw [List.length_take]
      omega
    have hld : (raw.drop 3).length = 3 := by
      rw [List.length_drop]
      omega
    rw [populatedCount_six, show [a, b, c, t, r, s] = convertScores raw from heq.symm,
      hsplit]
    rw [hlt] at hcount1
    rw [hld] at hcount2
    rcases hcount1 with h1 | h1 <;> rcases hcount2 with h2 | h2 <;>
      rw [h1, h2] <;> omega
  · cases h

/-- A pre-cutoff line processed without runtime substitution yields a
record populated on a whole number of part triples, provided its dashes
are triple-atomic. -/
theorem processLine_populated {year : Int} (hy : year < 2025) {line : List Char}
    (hat : atomicLine line = true) {p : Int × DayScores}
    (h : processLine year false emptyTracker line = .ok p) :
    populatedCount p.2 = 0 ∨ populatedCount p.2 = 3 ∨ populatedCount p.2 = 6 := by
  unfold processLine at h
  unfold atomicLine at hat
  cases htoks : pyTokens (trimL line) with
  | nil => rw [htoks] at h; cases h
  | cons day raw =>
    simp only [htoks] at h hat
    have hnorm : normalizeScores year (convertScores raw) = convertScores raw := by
      rw [normalizeScores, if_neg (by omega)]
    rw [hnorm] at h
    split at h
    · cases hint : toIntL day with
      | error e => rw [hint] at h; cases h
      | ok d =>
        rw [hint] at h
        simp only [Bool.false_eq_true, if_false] at h
        cases hbr : buildRecord day (convertScores raw) with
        | error e => rw [hbr] at h; cases h
        | ok rec =>
          rw [hbr] at h
          cases h
          rw [Bool.and_eq_true, Bool.or_eq_true, Bool.or_eq_true] at hat
          exact buildRecord_populated hat.1 hat.2 hbr
    · cases h

/-! ## Claims -/

/-- Claim C1 — code behavior at the spec's own end-to-end example.  For a
post-cutoff (year 2025) document whose table region is the line
`"5 - 99 888"`, the placeholder insertions of `parse_leaderboard`
(two absent values at index 1, then two more at index 4 because the
intermediate list is longer than 3) yield 7 fields, so the parser's
3-or-6 assertion raises instead of producing day 5 with part 1 absent
and part 2 `{time: absent, rank: "99", score: "888"}`. -/
theorem parse_post_cutoff_line_fails :
    parse_leaderboard (fun _ => docPost) 2025 none false =
      .error (.badScoresCount ['5'] 7) := rfl

/-- Claim C6 — code behavior.  With a runtime lookup supplied, a line
with a part-1-only (3-field) record makes `parse_leaderboard` raise
`IndexError` at the unconditional `scores[3]` assignment — the parse
fails even though every lookup entry is missing (the same document
parses fine without runtime substitution). -/
theorem parse_runtime_three_field_fails :
    parse_leaderboard (fun _ => docPreOne) 2020 (some emptyTracker) true =
      .error .indexError ∧
    parse_leaderboard (fun _ => docPreOne) 2020 none false =
      .ok [(5, ⟨some "00:12:34", some "123", some "456", none, none, none⟩)] :=
  ⟨rfl, rfl⟩

/-- Claim C4 — code behavior.  In a composition that needs remote
evidence, the leaderboard of year 2020 is fetched and parsed once per
`(language, year)` pair: one language causes one parse, two languages
cause two — the fetch count grows with the number of languages. -/
theorem parse_called_per_language :
    parseCallCount bothTM (fun _ => docPreOne) solsDay3 [langTwoFiles] [2020] = .ok 1 ∧
    parseCallCount bothTM (fun _ => docPreOne) solsDay3
      [langTwoFiles, langOneFile] [2020] = .ok 2 :=
  ⟨rfl, rfl⟩

/-- Claim C5 — counterexample.  With three local solution files,
`_get_stars` under `file_exists` (and `either`) returns 3, not
`min(localSolved, 2) = 2`, and the result leaves `{0, 1, 2}`. -/
theorem get_stars_uncapped_cex :
    get_stars localTM none (some 3) = .ok 3 ∧
    min (3 : Nat) 2 = 2 ∧ (3 : Nat) ≠ 2 ∧
    get_stars ⟨"checkmark", "either", false⟩ none (some 3) = .ok 3 ∧
    ¬((3 : Nat) = 0 ∨ (3 : Nat) = 1 ∨ (3 : Nat) = 2) :=
  ⟨rfl, rfl, by decide, rfl, by decide⟩

/-- Claim C5 (amended).  Under any of the four rules `_get_stars`
succeeds with: `on_leaderboard` → remoteSolved, `file_exists` →
localSolved (uncapped), `either` → max(remoteSolved, localSolved),
`both` → min(remoteSolved, localSolved); remote evidence is always at
most 2 and an absent score record counts as 0 remote stars, so the
result lies in `{0, 1, 2}` whenever the local count is at most 2 (and
always for `on_leaderboard` and `both`). -/
theorem get_stars_rules (tm : TileMaker) (solved : Option DayScores)
    (solution : Option Nat) (hrule : ruleValid tm) :
    get_stars tm solved solution = .ok (starsValue tm solved solution) ∧
    (tm.count_as_solved_when = "on_leaderboard" →
      starsValue tm solved solution = remoteCount solved) ∧
    (tm.count_as_solved_when = "file_exists" →
      starsValue tm solved solution = localLen solution) ∧
    (tm.count_as_solved_when = "either" →
      starsValue tm solved solution = max (remoteCount solved) (localLen solution)) ∧
    (tm.count_as_solved_when = "both" →
      starsValue tm solved solution = min (remoteCount solved) (localLen solution)) ∧
    remoteCount solved ≤ 2 ∧ remoteCount none = 0 ∧
    (localLen solution ≤ 2 → starsValue tm solved solution ≤ 2) := by
  have hrem : remoteCount solved ≤ 2 := by
    cases solved with
    | none => simp [remoteCount]
    | some sc =>
      simp only [remoteCount]
      cases pyTruthy sc.rank1 <;> cases pyTruthy sc.rank2 <;> simp
  refine ⟨get_stars_eq tm hrule solved solution, ?_, ?_, ?_, ?_, hrem, rfl, ?_⟩
  · intro h; simp [starsValue, h]
  · intro h; simp [starsValue, h]
  · intro h; simp [starsValue, h]
  · intro h; simp [starsValue, h]
  · intro h
    unfold starsValue
    split_ifs <;> omega

/-- Witness for claim C5's amended theorem at the `file_exists`
configuration with two local files. -/
theorem get_stars_rules_witness :
    get_stars localTM none (some 2) = .ok (starsValue localTM none (some 2)) ∧
    starsValue localTM none (some 2) ≤ 2 :=
  ⟨(get_stars_rules localTM none (some 2) (Or.inr (Or.inl rfl))).1,
    (get_stars_rules localTM none (some 2)
      (Or.inr (Or.inl rfl))).2.2.2.2.2.2.2 (by decide)⟩

/-- Claim C8 — counterexample.  A pre-cutoff document whose row
`"5 - 123 456"` carries a dash inside the part-1 triple parses
successfully into a record with exactly 2 populated leaf fields, which
is neither 0 nor 3 nor 6. -/
theorem parse_partial_triple_cex :
    parse_leaderboard (fun _ => docPreDash) 2020 none false =
      .ok [(5, ⟨none, some "123", some "456", none, none, none⟩)] ∧
    populatedCount ⟨none, some "123", some "456", none, none, none⟩ = 2 ∧
    ¬((2 : Nat) = 0 ∨ (2 : Nat) = 3 ∨ (2 : Nat) = 6) :=
  ⟨rfl, rfl, by decide⟩

/-- Claim C8 (amended).  Without runtime substitution, each leaf field
of a parsed record is populated exactly when its token is present and
not the placeholder dash; consequently, for pre-cutoff years, whenever
every row's dashes cover whole part triples, every record produced by
`parse_leaderboard` has exactly 0, 3 or 6 populated leaf fields. -/
theorem parse_populated_count_atomic {gl : Int → String} {year : Int}
    (hy : year < 2025) {m : List (Int × DayScores)}
    (h : parse_leaderboard gl year none false = .ok m)
    (hat : ∀ line ∈ (tableRows year (gl year)).getD [], atomicLine line = true) :
    ∀ p ∈ m, populatedCount p.2 = 0 ∨ populatedCount p.2 = 3 ∨
      populatedCount p.2 = 6 := by
  intro p hp
  unfold parse_leaderboard at h
  simp only [Bool.false_and, Bool.false_eq_true, if_false] at h
  split at h
  · cases h
    cases hp
  · split at h
    · cases h
    · rename_i rows hrows
      rw [hrows] at hat
      simp only [Option.getD_some] at hat
      rcases exFoldl_dict_mem
          (processLine year false ((none : Option DataTracker).getD emptyTracker))
          rows [] m h p hp with hin | ⟨line, hl, hfl⟩
      · cases hin
      · exact processLine_populated hy (hat line hl) hfl

/-- Witness for claim C8's amended theorem at a document whose row's
dashes cover the whole part-1 triple. -/
theorem parse_populated_count_atomic_witness :
    populatedCount ⟨none, none, none, some "01:02:03", some "45", some "678"⟩ = 0 ∨
    populatedCount ⟨none, none, none, some "01:02:03", some "45", some "678"⟩ = 3 ∨
    populatedCount ⟨none, none, none, some "01:02:03", some "45", some "678"⟩ = 6 :=
  @parse_populated_count_atomic (fun _ => docPreAtomic) 2020 (by decide)
    [(5, ⟨none, none, none, some "01:02:03", some "45", some "678"⟩)] rfl
    (by decide)
    (5, ⟨none, none, none, some "01:02:03", some "45", some "678"⟩) (by decide)

/-- Claim C2 — counterexample.  For day 3 of 2020, the language with two
local files decides 2 stars and the one with one file decides 1; after
composing both (two-file language first) the stored count is 1, strictly
below the previously stored 2 and below the maximum of the per-language
decisions — folding in another language downgraded the day. -/
theorem compose_star_downgrade_cex :
    (compose_solve_data localTM glUnused solsDay3 [langTwoFiles] [2020]).map
      (fun sd => starsAt sd 2020 3) = .ok (some 2) ∧
    (compose_solve_data localTM glUnused solsDay3
      [langTwoFiles, langOneFile] [2020]).map
      (fun sd => starsAt sd 2020 3) = .ok (some 1) ∧
    decideVal localTM glUnused solsDay3 langTwoFiles 2020 3 = 2 ∧
    decideVal localTM glUnused solsDay3 langOneFile 2020 3 = 1 ∧
    max 2 1 = 2 ∧ (1 : Nat) < 2 :=
  ⟨rfl, rfl, rfl, rfl, rfl, by decide⟩

/-- Claim C2 (amended).  The stored star count of a day is not an
upgrade-only maximum over languages: it is the (day-25 adjusted)
Star-Policy decision of the last language, in processing order, that
attempted the day, so a later language with weaker evidence replaces —
and can lower — the stored count. -/
theorem compose_stars_last_write {tm : TileMaker} {gl : Int → String}
    {sols : SolutionsByYear} (hrule : ruleValid tm) {y d : Int}
    (hhas : sols.hasYear y = true) {SC : List (Int × DayScores)}
    (hSC : scoresFor tm gl sols y = .ok SC) (hd : d ∈ dayRange)
    (langs : List Language) (years : List Int) (hcy : years.count y = 1)
    (hok : ∀ y' ∈ years, sols.hasYear y' = true → is_leaderboard_needed tm = true →
      ∃ S, parse_leaderboard gl y' (some sols.runtime)
        (tm.what_to_show_on_right_side = "runtime") = .ok S) :
    ∃ sd, compose_solve_data tm gl sols langs years = .ok sd ∧
      starsAt sd y d =
        (langs.filter fun L => decide ((y, d) ∈ L.ran)).getLast?.map fun L =>
          adjustStars d (decideVal tm gl sols L y d) := by
  obtain ⟨sd, h1, h2, h3⟩ := compose_char hrule hhas hSC hd langs years hcy hok
  refine ⟨sd, h1, ?_⟩
  rw [h2]
  have hfun :
      (fun L => adjustStars d (starsValue tm (dictGet SC d) (daySolution sols L y d))) =
        fun L => adjustStars d (decideVal tm gl sols L y d) := by
    funext L
    rw [decideVal_eq hrule hSC]
  rw [hfun]

/-- Witness for claim C2's amended theorem: the two-language day-3
composition of the counterexample. -/
theorem compose_stars_last_write_witness :
    ∃ sd, compose_solve_data localTM glUnused solsDay3
        [langTwoFiles, langOneFile] [2020] = .ok sd ∧
      starsAt sd 2020 3 =
        ([langTwoFiles, langOneFile].filter fun L =>
          decide (((2020 : Int), (3 : Int)) ∈ L.ran)).getLast?.map fun L =>
            adjustStars 3 (decideVal localTM glUnused solsDay3 L 2020 3) :=
  @compose_stars_last_write localTM glUnused solsDay3 (Or.inr (Or.inl rfl))
    2020 3 rfl [] rfl (by decide) [langTwoFiles, langOneFile] [2020] (by decide)
    (fun _ _ _ hlb => absurd hlb (by decide))

/-- Claim C3 — counterexample.  `[langTwoFiles, langOneFile]` and its
permutation `[langOneFile, langTwoFiles]` compose to different day-3
star counts (1 versus 2) and different 2020 totals (1 versus 2):
language order does affect the final star counts. -/
theorem compose_order_dependent_cex :
    [langTwoFiles, langOneFile].Perm [langOneFile, langTwoFiles] ∧
    (compose_solve_data localTM glUnused solsDay3
      [langTwoFiles, langOneFile] [2020]).map
      (fun sd => starsAt sd 2020 3) = .ok (some 1) ∧
    (compose_solve_data localTM glUnused solsDay3
      [langOneFile, langTwoFiles] [2020]).map
      (fun sd => starsAt sd 2020 3) = .ok (some 2) ∧
    (compose_solve_data localTM glUnused solsDay3
      [langTwoFiles, langOneFile] [2020]).map
      (fun sd => (dictGet sd 2020).map fun yd => sumStars yd.day_to_stars) =
      .ok (some 1) ∧
    (compose_solve_data localTM glUnused solsDay3
      [langOneFile, langTwoFiles] [2020]).map
      (fun sd => (dictGet sd 2020).map fun yd => sumStars yd.day_to_stars) =
      .ok (some 2) ∧
    (some 1 : Option Nat) ≠ some 2 :=
  ⟨List.Perm.swap _ _ _, rfl, rfl, rfl, rfl, by decide⟩

/-- Claim C3 (amended).  Permuting the language-processing order of
`compose` keeps each day's contributing-language list a permutation of
the original (same membership), but the per-day star counts follow the
last attempting language of each order and need not agree. -/
theorem compose_perm_paths {tm : TileMaker} {gl : Int → String}
    {sols : SolutionsByYear} (hrule : ruleValid tm) {y d : Int}
    (hhas : sols.hasYear y = true) {SC : List (Int × DayScores)}
    (hSC : scoresFor tm gl sols y = .ok SC) (hd : d ∈ dayRange)
    (langs langs' : List Language) (hperm : langs.Perm langs')
    (years : List Int) (hcy : years.count y = 1)
    (hok : ∀ y' ∈ years, sols.hasYear y' = true → is_leaderboard_needed tm = true →
      ∃ S, parse_leaderboard gl y' (some sols.runtime)
        (tm.what_to_show_on_right_side = "runtime") = .ok S) :
    ∃ sd sd', compose_solve_data tm gl sols langs years = .ok sd ∧
      compose_solve_data tm gl sols langs' years = .ok sd' ∧
      (pathsAt sd y d).Perm (pathsAt sd' y d) := by
  obtain ⟨sd, h1, -, h3⟩ := compose_char hrule hhas hSC hd langs years hcy hok
  obtain ⟨sd', h1', -, h3'⟩ := compose_char hrule hhas hSC hd langs' years hcy hok
  refine ⟨sd, sd', h1, h1', ?_⟩
  rw [h3, h3']
  exact hperm.filter _

/-- Witness for claim C3's amended theorem: the two orders of the
counterexample's languages. -/
theorem compose_perm_paths_witness :
    ∃ sd sd', compose_solve_data localTM glUnused solsDay3
        [langTwoFiles, langOneFile] [2020] = .ok sd ∧
      compose_solve_data localTM glUnused solsDay3
        [langOneFile, langTwoFiles] [2020] = .ok sd' ∧
      (pathsAt sd 2020 3).Perm (pathsAt sd' 2020 3) :=
  @compose_perm_paths localTM glUnused solsDay3 (Or.inr (Or.inl rfl))
    2020 3 rfl [] rfl (by decide)
    [langTwoFiles, langOneFile] [langOneFile, langTwoFiles]
    (List.Perm.swap _ _ _) [2020] (by decide)
    (fun _ _ _ hlb => absurd hlb (by decide))

/-- Claim C7 — counterexample.  Composing years `[2021, 2020]` where
2021's document is well-formed and 2020's has no leaderboard region
yields an error carrying no per-year state at all — 2021's composed
state (which the same call produces when 2020 is left out) is lost, not
preserved. -/
theorem compose_error_aborts_all_cex :
    compose_solve_data bothTM glMixed solsTwoYears [langTwoFiles] [2021, 2020] =
      .error .noLeaderboard ∧
    compose_solve_data bothTM glMixed solsTwoYears [langTwoFiles] [2021] =
      .ok [(2021, ⟨[(5, ⟨some "00:12:34", some "123", some "456",
        none, none, none⟩)], [], []⟩)] :=
  ⟨rfl, rfl⟩

/-- Claim C7 (amended).  A leaderboard parsing error for any composed
year is fatal to the whole composition: `compose_solve_data` returns an
error, so no year's composed state — not even a healthy year's — is
returned. -/
theorem compose_error_aborts_all {tm : TileMaker} {gl : Int → String}
    {sols : SolutionsByYear} (hlb : is_leaderboard_needed tm = true) {y : Int}
    (hhas : sols.hasYear y = true) {l : Language} {langs : List Language}
    (hl : l ∈ langs) {years : List Int} (hy : y ∈ years) {e : PyError}
    (hfail : parse_leaderboard gl y (some sols.runtime)
      (tm.what_to_show_on_right_side = "runtime") = .error e) :
    ∃ e', compose_solve_data tm gl sols langs years = .error e' := by
  have hmem : (l, y) ∈ pairsOf langs years := by
    rw [pairsOf, List.mem_flatMap]
    exact ⟨l, hl, List.mem_map.mpr ⟨y, hy, rfl⟩⟩
  have herr : ∀ st : List (Int × YearData) × Nat,
      ∃ e'', composeStep tm gl sols st l y = .error e'' := fun st =>
    ⟨e, by simp only [composeStep, hhas, if_true, hlb, hfail]⟩
  obtain ⟨e', he'⟩ :=
    exFoldl_error_of_mem (fun st p => composeStep tm gl sols st p.1 p.2)
      hmem (fun s => herr s) ([], 0)
  refine ⟨e', ?_⟩
  rw [compose_solve_data, composeAux, he']
  rfl

/-- Witness for claim C7's amended theorem at the mixed two-year
fixture. -/
theorem compose_error_aborts_all_witness :
    ∃ e', compose_solve_data bothTM glMixed solsTwoYears [langTwoFiles]
      [2021, 2020] = .error e' :=
  compose_error_aborts_all (by decide) (y := 2020) rfl
    (l := langTwoFiles) (by decide) (by decide) (e := .noLeaderboard) rfl

/-- Claim C9 — counterexample.  A composed 2020 state whose only starred
day is 5 makes `handle_year` render days 1..5, and the direct star
lookup for day 1 — a day with no recorded star entry — raises
`KeyError` instead of succeeding. -/
theorem handle_year_missing_stars_cex :
    compose_solve_data localTM glUnused solsDayFive [langDayFive] [2020] =
      .ok [(2020, ⟨[], [(5, [langDayFive])], [(5, 2)]⟩)] ∧
    handle_year localTM ⟨[], [(5, [langDayFive])], [(5, 2)]⟩ =
      .error (.keyError "1") :=
  ⟨rfl, rfl⟩

/-- Claim C9 (amended).  Year aggregation tolerates days with no
contributing languages and no score record (those lookups default to
empty/absent), but not a missing star count: `handle_year` succeeds
exactly on states whose every day in the rendered range `1..max_day`
has a stored star entry. -/
theorem handle_year_ok_of_stars (tm : TileMaker) (yd : YearData)
    (h : ∀ d : Int, 1 ≤ d →
      d ≤ (if tm.create_all_days then 25 else maxSolvedDay yd.day_to_stars) →
      (dictGet yd.day_to_stars d).isSome = true) :
    ∃ out, handle_year tm yd = .ok out := by
  have hok : ∀ x ∈ rangeDays
      (if tm.create_all_days then (25 : Int) else maxSolvedDay yd.day_to_stars),
      ∀ acc : List RenderCall, ∃ acc',
        renderDay yd
          (fill_empty_days yd.day_to_paths
            (if tm.create_all_days then (25 : Int) else maxSolvedDay yd.day_to_stars))
          acc x = .ok acc' := by
    intro x hx acc
    obtain ⟨hx1, hx2⟩ := mem_rangeDays hx
    obtain ⟨s, hs⟩ := Option.isSome_iff_exists.mp (h x hx1 hx2)
    exact ⟨_, by rw [renderDay, hs]⟩
  obtain ⟨calls, hcalls⟩ := exFoldl_ok_of_all _ hok []
  refine ⟨(sumStars yd.day_to_stars, get_programming_languages_used_daily yd, calls), ?_⟩
  simp only [handle_year]
  rw [hcalls]

/-- Witness for claim C9's amended theorem at a state whose single
rendered day has a star entry. -/
theorem handle_year_ok_of_stars_witness :
    ∃ out, handle_year localTM ⟨[], [], [(1, 2)]⟩ = .ok out :=
  handle_year_ok_of_stars localTM ⟨[], [], [(1, 2)]⟩ (by
    intro d h1 h2
    rw [show (if localTM.create_all_days then (25 : Int)
      else maxSolvedDay [(1, 2)]) = 1 from rfl] at h2
    rw [show d = 1 from le_antisymm h2 h1]
    rfl)

/-- Claim C10.  A composition stores star counts through the day-25
adjustment: whenever the last attempting language's decision for day 25
is exactly 1, the stored count is 2; a decision that is not
(day 25, 1 star) — 0 or 2 on day 25, or any count on another day — is
stored unchanged. -/
theorem day25_bonus_stored {tm : TileMaker} {gl : Int → String}
    {sols : SolutionsByYear} (hrule : ruleValid tm) {y d : Int}
    (hhas : sols.hasYear y = true) {SC : List (Int × DayScores)}
    (hSC : scoresFor tm gl sols y = .ok SC) (hd : d ∈ dayRange)
    (langs : List Language) (years : List Int) (hcy : years.count y = 1)
    (hok : ∀ y' ∈ years, sols.hasYear y' = true → is_leaderboard_needed tm = true →
      ∃ S, parse_leaderboard gl y' (some sols.runtime)
        (tm.what_to_show_on_right_side = "runtime") = .ok S)
    {L : Language}
    (hL : (langs.filter fun L => decide ((y, d) ∈ L.ran)).getLast? = some L) :
    ∃ sd, compose_solve_data tm gl sols langs years = .ok sd ∧
      (d = 25 → decideVal tm gl sols L y d = 1 → starsAt sd y d = some 2) ∧
      (¬(d = 25 ∧ decideVal tm gl sols L y d = 1) →
        starsAt sd y d = some (decideVal tm gl sols L y d)) := by
  obtain ⟨sd, h1, h2, -⟩ := compose_char hrule hhas hSC hd langs years hcy hok
  have hmap : starsAt sd y d = some (adjustStars d (decideVal tm gl sols L y d)) := by
    rw [h2, hL]
    rw [decideVal_eq hrule hSC]
    rfl
  refine ⟨sd, h1, ?_, ?_⟩
  · intro h25 hone
    rw [hmap, hone]
    unfold adjustStars
    rw [if_pos ⟨h25, rfl⟩]
  · intro hne
    rw [hmap]
    unfold adjustStars
    rw [if_neg hne]

/-- Witness for claim C10: day 25 of 2020 with a single-star decision is
stored as two stars. -/
theorem day25_bonus_stored_witness :
    ∃ sd, compose_solve_data localTM glUnused solsDay25 [langDay25] [2020] = .ok sd ∧
      ((25 : Int) = 25 → decideVal localTM glUnused solsDay25 langDay25 2020 25 = 1 →
        starsAt sd 2020 25 = some 2) ∧
      (¬((25 : Int) = 25 ∧ decideVal localTM glUnused solsDay25 langDay25 2020 25 = 1) →
        starsAt sd 2020 25 = some (decideVal localTM glUnused solsDay25 langDay25 2020 25)) :=
  @day25_bonus_stored localTM glUnused solsDay25 (Or.inr (Or.inl rfl))
    2020 25 rfl [] rfl (by decide) [langDay25] [2020] (by decide)
    (fun _ _ _ hlb => absurd hlb (by decide)) langDay25 (by decide)

end AocTiles
